import Mathlib

/-!
Shallow embedding of the RAG chatbot API (`src/main.py`), a FastAPI backend
that proxies user questions to a generative-language endpoint and keeps a
per-user message transcript in an in-memory dictionary.

The process-wide dictionary `messages_storage` is embedded as an association
list from user identifier to transcript, passed and returned explicitly by
each handler. The outbound HTTP call made by `get_bot_response` is embedded
as an oracle argument of type `UpstreamResult`: either an exception carrying
its string rendering (transport failure, timeout, or the `raise_for_status`
error on a non-2xx status) or the decoded JSON body of a 2xx response, whose
relevant shape is captured by `GeminiData` with optional fields mirroring the
`in`-checks of the Python code. The wall clock `int(time.time() * 1000)` is
likewise an explicit `Nat` argument.
-/

/-- The `Message` pydantic model of `main.py`. -/
structure Message where
  id : Nat
  user_id : String
  text : String
  sender : String
  timestamp : Nat
  deriving Repr, DecidableEq

/-- The `ChatResponse` pydantic model of `main.py`. -/
structure ChatResponse where
  user_message : String
  bot_response : String
  timestamp : Nat
  deriving Repr, DecidableEq

/-- The dictionary literal returned by the `clear_messages` handler. -/
structure ClearResponse where
  status : String
  message : String
  deriving Repr, DecidableEq

/-- The in-memory `messages_storage` dictionary: user id to transcript. -/
abbrev Store := List (String × List Message)

/-- Dictionary lookup `d.get(k)` / `d[k]`: the first binding of `k`. -/
def lookupStore : Store → String → Option (List Message)
  | [], _ => none
  | (k, v) :: rest, key => if k = key then some v else lookupStore rest key

/-- Dictionary membership test `k in d`. -/
def containsStore (s : Store) (key : String) : Bool :=
  (lookupStore s key).isSome

/-- Dictionary assignment `d[k] = v`: replace the binding of `k`, or add it. -/
def insertStore : Store → String → List Message → Store
  | [], key, v => [(key, v)]
  | (k, w) :: rest, key, v =>
      if k = key then (key, v) :: rest else (k, w) :: insertStore rest key v

/-- Dictionary deletion `del d[k]` (a no-op when `k` is absent, matching the
guarded `if user_id in messages_storage: del ...` of `clear_messages`). -/
def eraseStore : Store → String → Store
  | [], _ => []
  | (k, w) :: rest, key =>
      if k = key then eraseStore rest key else (k, w) :: eraseStore rest key

/-- One `parts` element of a Gemini candidate: may or may not carry `text`. -/
structure GeminiPart where
  text : Option String
  deriving Repr, DecidableEq

/-- The `content` object of a Gemini candidate: may or may not carry `parts`. -/
structure GeminiContent where
  parts : Option (List GeminiPart)
  deriving Repr, DecidableEq

/-- One element of the `candidates` array: may or may not carry `content`. -/
structure GeminiCandidate where
  content : Option GeminiContent
  deriving Repr, DecidableEq

/-- The decoded JSON body of a 2xx upstream response: may or may not carry
a `candidates` array. -/
structure GeminiData where
  candidates : Option (List GeminiCandidate)
  deriving Repr, DecidableEq

/-- Outcome of the outbound `requests.post` call inside `get_bot_response`:
either a raised exception (transport error, timeout, or `raise_for_status`
on a non-2xx response), rendered by `str(e)`, or the decoded 2xx body. -/
inductive UpstreamResult where
  | failure (details : String)
  | success (data : GeminiData)
  deriving Repr, DecidableEq

/-- The fixed instructional template wrapped around the question in the
request payload of `get_bot_response`. -/
def geminiPayloadText (question : String) : String :=
  "You are an English learning assistant. Answer this question about English grammar and usage: " ++ question

/-- The literal fallback string returned when a 2xx body lacks the expected
shape. -/
def noResponseMessage : String :=
  "I couldn\x27t generate a response. Please try again."

/-- `get_bot_response` of `main.py`. The chain of `in`/`len` checks on the
decoded body becomes the nested matches; the blanket `except Exception`
branch becomes the `failure` case, returning `f"Error: {str(e)}"`. -/
def get_bot_response (question : String) (up : UpstreamResult) : String :=
  let _payload := geminiPayloadText question
  match up with
  | .failure details => "Error: " ++ details
  | .success data =>
      match data.candidates with
      | some (candidate :: _) =>
          match candidate.content with
          | some content =>
              match content.parts with
              | some (p :: _) =>
                  match p.text with
                  | some t => t
                  | none => noResponseMessage
              | _ => noResponseMessage
          | none => noResponseMessage
      | _ => noResponseMessage

/-- The text extracted from a 2xx body when the expected shape is present:
the first candidate's first content part's `text` field. -/
def geminiFirstText (data : GeminiData) : Option String :=
  match data.candidates with
  | some (candidate :: _) =>
      match candidate.content with
      | some content =>
          match content.parts with
          | some (p :: _) => p.text
          | _ => none
      | none => none
  | _ => none

/-- The `chat` handler (`POST /api/chat`). Arguments: the current store, the
request's `user_id` and `question`, the sampled timestamp, and the outcome of
the upstream call. Returns the new store and the `ChatResponse`. -/
def chat (s : Store) (user_id question : String) (ts : Nat)
    (up : UpstreamResult) : Store × ChatResponse :=
  let s0 := if containsStore s user_id then s else insertStore s user_id []
  let msg_id := ((lookupStore s0 user_id).getD []).length + 1
  let user_msg : Message :=
    { id := msg_id, user_id := user_id, text := question,
      sender := "user", timestamp := ts }
  let s1 := insertStore s0 user_id
    (((lookupStore s0 user_id).getD []) ++ [user_msg])
  let response_text := get_bot_response question up
  let bot_msg : Message :=
    { id := msg_id + 1, user_id := user_id, text := response_text,
      sender := "bot", timestamp := ts + 1 }
  let s2 := insertStore s1 user_id
    (((lookupStore s1 user_id).getD []) ++ [bot_msg])
  (s2, { user_message := question, bot_response := response_text,
         timestamp := ts })

/-- The `get_messages` handler (`GET /api/messages/{user_id}`): create an
empty transcript when absent, then return the whole transcript. -/
def get_messages (s : Store) (user_id : String) : Store × List Message :=
  let s0 := if containsStore s user_id then s else insertStore s user_id []
  (s0, (lookupStore s0 user_id).getD [])

/-- The `clear_messages` handler (`DELETE /api/messages/{user_id}`): count
the stored messages, delete the key when present, report the count. -/
def clear_messages (s : Store) (user_id : String) : Store × ClearResponse :=
  let count := ((lookupStore s user_id).getD []).length
  let s0 := if containsStore s user_id then eraseStore s user_id else s
  (s0, { status := "success",
         message := "Deleted " ++ toString count ++ " messages" })

/-! ### Store lemmas -/

theorem lookup_insert_self (s : Store) (k : String) (v : List Message) :
    lookupStore (insertStore s k v) k = some v := by
  induction s with
  | nil => simp [insertStore, lookupStore]
  | cons hd tl ih =>
      obtain ⟨k0, w⟩ := hd
      by_cases h : k0 = k
      · simp [insertStore, lookupStore, h]
      · simp [insertStore, lookupStore, h, ih]

theorem lookup_insert_other (s : Store) (k k' : String) (v : List Message)
    (h : k' ≠ k) : lookupStore (insertStore s k v) k' = lookupStore s k' := by
  induction s with
  | nil => simp [insertStore, lookupStore, Ne.symm h]
  | cons hd tl ih =>
      obtain ⟨k0, w⟩ := hd
      by_cases hk : k0 = k
      · subst hk
        simp [insertStore, lookupStore, Ne.symm h]
      · by_cases hk' : k0 = k'
        · simp [insertStore, lookupStore, hk, hk', h]
        · simp [insertStore, lookupStore, hk, hk', ih]

theorem lookup_erase_self (s : Store) (k : String) :
    lookupStore (eraseStore s k) k = none := by
  induction s with
  | nil => simp [eraseStore, lookupStore]
  | cons hd tl ih =>
      obtain ⟨k0, w⟩ := hd
      by_cases h : k0 = k
      · simp [eraseStore, h, ih]
      · simp [eraseStore, lookupStore, h, ih]

theorem lookup_erase_other (s : Store) (k k' : String) (h : k' ≠ k) :
    lookupStore (eraseStore s k) k' = lookupStore s k' := by
  induction s with
  | nil => simp [eraseStore]
  | cons hd tl ih =>
      obtain ⟨k0, w⟩ := hd
      by_cases hk : k0 = k
      · subst hk
        simp [eraseStore, lookupStore, Ne.symm h, ih]
      · simp [eraseStore, lookupStore, hk, ih]

theorem erase_absent (s : Store) (k : String) (h : lookupStore s k = none) :
    eraseStore s k = s := by
  induction s with
  | nil => simp [eraseStore]
  | cons hd tl ih =>
      obtain ⟨k0, w⟩ := hd
      by_cases hk : k0 = k
      · simp [lookupStore, hk] at h
      · simp [lookupStore, hk] at h
        simp [eraseStore, hk, ih h]

/-- The user message built by `chat` from a prior transcript of length `n`. -/
def chatUserMsg (user_id question : String) (ts n : Nat) : Message :=
  { id := n + 1, user_id := user_id, text := question,
    sender := "user", timestamp := ts }

/-- The bot message built by `chat` from a prior transcript of length `n`. -/
def chatBotMsg (user_id question : String) (ts n : Nat)
    (up : UpstreamResult) : Message :=
  { id := n + 2, user_id := user_id, text := get_bot_response question up,
    sender := "bot", timestamp := ts + 1 }

/-- After `chat`, the user's transcript is the old one (empty when the user
was absent) extended with exactly the user message and the bot message. -/
theorem chat_lookup_self (s : Store) (u q : String) (ts : Nat)
    (up : UpstreamResult) :
    lookupStore (chat s u q ts up).1 u =
      some ((lookupStore s u).getD [] ++
        [chatUserMsg u q ts ((lookupStore s u).getD []).length,
         chatBotMsg u q ts ((lookupStore s u).getD []).length up]) := by
  unfold chat
  by_cases h : containsStore s u
  · rcases ho : lookupStore s u with _ | t0
    · simp [containsStore, ho] at h
    · simp [h, ho, lookup_insert_self, chatUserMsg, chatBotMsg]
  · have ho : lookupStore s u = none := by
      cases ho : lookupStore s u with
      | none => rfl
      | some t => simp [containsStore, ho] at h
    simp [h, ho, lookup_insert_self, chatUserMsg, chatBotMsg]

/-- `chat` leaves every other user's entry untouched. -/
theorem chat_lookup_other (s : Store) (u q : String) (ts : Nat)
    (up : UpstreamResult) (v : String) (h : v ≠ u) :
    lookupStore (chat s u q ts up).1 v = lookupStore s v := by
  unfold chat
  by_cases hc : containsStore s u
  · simp [hc, lookup_insert_other _ _ _ _ h]
  · simp [hc, lookup_insert_other _ _ _ _ h]

/-! ### Reachable store states under sequential handler execution -/

/-- One sequential handler execution, from store to store. The timestamp and
the upstream outcome of a `chat` step are arbitrary. -/
inductive Step : Store → Store → Prop
  | chat (u q : String) (ts : Nat) (up : UpstreamResult) (s : Store) :
      Step s (chat s u q ts up).1
  | list (u : String) (s : Store) : Step s (get_messages s u).1
  | clear (u : String) (s : Store) : Step s (clear_messages s u).1

/-- Store states reachable from the initial empty `messages_storage = {}` by
executing handlers one after another. -/
inductive Reachable : Store → Prop
  | init : Reachable []
  | step {s s' : Store} : Reachable s → Step s s' → Reachable s'

/-- The invariant of one transcript stored under key `u`: the message at
position `i` carries id `i + 1` (its position is its id minus one, because
the id was assigned as length + 1 at append time), the key's user id, and
sender `"user"` or `"bot"`. -/
def goodTranscript (u : String) (msgs : List Message) : Prop :=
  ∀ i m, msgs[i]? = some m →
    m.id = i + 1 ∧ m.user_id = u ∧ (m.sender = "user" ∨ m.sender = "bot")

/-- The store invariant: every stored transcript satisfies `goodTranscript`. -/
def goodStore (s : Store) : Prop :=
  ∀ u msgs, lookupStore s u = some msgs → goodTranscript u msgs

theorem goodTranscript_nil (u : String) : goodTranscript u [] := by
  intro i m h
  simp at h

theorem goodTranscript_chat_extend (u q : String) (ts : Nat)
    (up : UpstreamResult) (t0 : List Message) (h : goodTranscript u t0) :
    goodTranscript u
      (t0 ++ [chatUserMsg u q ts t0.length, chatBotMsg u q ts t0.length up]) := by
  intro i m hm
  by_cases hi : i < t0.length
  · rw [List.getElem?_append_left hi] at hm
    exact h i m hm
  · push_neg at hi
    rw [List.getElem?_append_right hi] at hm
    rcases hd : i - t0.length with _ | k
    · rw [hd] at hm
      simp at hm
      subst hm
      have hit : i = t0.length := by omega
      subst hit
      exact ⟨by simp [chatUserMsg], by simp [chatUserMsg], Or.inl rfl⟩
    · rcases k with _ | k
      · rw [hd] at hm
        simp at hm
        subst hm
        have hit : i = t0.length + 1 := by omega
        subst hit
        exact ⟨by simp [chatBotMsg], by simp [chatBotMsg], Or.inr rfl⟩
      · rw [hd] at hm
        simp at hm

theorem goodStore_step {s s' : Store} (hs : goodStore s) (hstep : Step s s') :
    goodStore s' := by
  cases hstep with
  | chat u q ts up s =>
      intro v msgs hv
      by_cases hvu : v = u
      · subst hvu
        rw [chat_lookup_self] at hv
        injection hv with hv
        subst hv
        rcases ho : lookupStore s v with _ | t0
        · simp [ho]
          exact goodTranscript_chat_extend v q ts up [] (goodTranscript_nil v)
        · simp [ho]
          exact goodTranscript_chat_extend v q ts up t0 (hs v t0 ho)
      · rw [chat_lookup_other s u q ts up v hvu] at hv
        exact hs v msgs hv
  | list u s =>
      intro v msgs hv
      unfold get_messages at hv
      by_cases hc : containsStore s u
      · simp [hc] at hv
        exact hs v msgs hv
      · simp [hc] at hv
        by_cases hvu : v = u
        · subst hvu
          rw [lookup_insert_self] at hv
          injection hv with hv
          subst hv
          exact goodTranscript_nil v
        · rw [lookup_insert_other _ _ _ _ hvu] at hv
          exact hs v msgs hv
  | clear u s =>
      intro v msgs hv
      unfold clear_messages at hv
      by_cases hc : containsStore s u
      · simp [hc] at hv
        by_cases hvu : v = u
        · subst hvu
          rw [lookup_erase_self] at hv
          exact absurd hv (by simp)
        · rw [lookup_erase_other _ _ _ hvu] at hv
          exact hs v msgs hv
      · simp [hc] at hv
        exact hs v msgs hv

theorem goodStore_reachable {s : Store} (h : Reachable s) : goodStore s := by
  induction h with
  | init => intro u msgs hu; simp [lookupStore] at hu
  | step _ hstep ih => exact goodStore_step ih hstep

/-- `get_bot_response` on a 2xx body extracts `geminiFirstText` when present
and otherwise falls through to the fixed fallback string. -/
theorem get_bot_response_success (q : String) (data : GeminiData) :
    get_bot_response q (.success data) =
      (geminiFirstText data).getD noResponseMessage := by
  rcases data with ⟨cands⟩
  rcases cands with _ | (_ | ⟨c, rest⟩)
  · rfl
  · rfl
  · rcases c with ⟨ct⟩
    rcases ct with _ | ⟨ps⟩
    · rfl
    · rcases ps with _ | (_ | ⟨p, prest⟩)
      · rfl
      · rfl
      · rcases p with ⟨t⟩
        rcases t with _ | t
        · rfl
        · rfl

/-! ### Claim theorems -/

/-- Claim C1: a chat request appends exactly two messages to the user's
transcript — first a `"user"` message whose text is the question, then a
`"bot"` message whose id is the user message's id + 1 and whose timestamp is
the user message's timestamp + 1. -/
theorem chat_appends_two_messages (s : Store) (u q : String) (ts : Nat)
    (up : UpstreamResult) :
    ∃ m1 m2 : Message,
      lookupStore (chat s u q ts up).1 u =
        some ((lookupStore s u).getD [] ++ [m1, m2]) ∧
      m1.sender = "user" ∧ m1.text = q ∧ m2.sender = "bot" ∧
      m2.id = m1.id + 1 ∧ m2.timestamp = m1.timestamp + 1 :=
  ⟨_, _, chat_lookup_self s u q ts up, rfl, rfl, rfl, rfl, rfl⟩

/-- Claim C2: `get_bot_response` is a total function (it can raise no
exception in this embedding); on a transport failure, timeout, or non-2xx
status it returns `"Error: {details}"`; on a 2xx body it returns the first
candidate's first content part's text field when that shape is present and
the literal fallback string otherwise. -/
theorem get_bot_response_contract (q d : String) (data : GeminiData) :
    get_bot_response q (.failure d) = "Error: " ++ d ∧
    (∀ t, geminiFirstText data = some t →
      get_bot_response q (.success data) = t) ∧
    (geminiFirstText data = none →
      get_bot_response q (.success data) =
        "I couldn\x27t generate a response. Please try again.") := by
  refine ⟨rfl, ?_, ?_⟩
  · intro t ht
    rw [get_bot_response_success, ht]
    rfl
  · intro ht
    rw [get_bot_response_success, ht]
    rfl

theorem get_bot_response_contract_witness :
    get_bot_response "q" (.success ⟨some [⟨some ⟨some [⟨some "hi"⟩]⟩⟩]⟩) = "hi" ∧
    get_bot_response "q" (.success ⟨none⟩) =
      "I couldn\x27t generate a response. Please try again." ∧
    get_bot_response "q" (.failure "timeout") = "Error: " ++ "timeout" :=
  ⟨(get_bot_response_contract "q" "timeout"
      ⟨some [⟨some ⟨some [⟨some "hi"⟩]⟩⟩]⟩).2.1 "hi" (by decide),
   (get_bot_response_contract "q" "timeout" ⟨none⟩).2.2 (by decide),
   (get_bot_response_contract "q" "timeout" ⟨none⟩).1⟩

/-- Claim C3: when the upstream call fails (e.g. a timeout), the chat handler
still returns normally (it is a total function here — the failure never
escapes `get_bot_response`): the failure string `"Error: {details}"` is both
the `bot_response` field of the reply and the text of the stored bot message,
and both messages are still appended to the transcript. -/
theorem chat_absorbs_upstream_failure (s : Store) (u q d : String) (ts : Nat) :
    (chat s u q ts (.failure d)).2.bot_response = "Error: " ++ d ∧
    ∃ m1 m2 : Message,
      lookupStore (chat s u q ts (.failure d)).1 u =
        some ((lookupStore s u).getD [] ++ [m1, m2]) ∧
      m1.sender = "user" ∧ m2.sender = "bot" ∧ m2.text = "Error: " ++ d :=
  ⟨rfl, _, _, chat_lookup_self s u q ts (.failure d), rfl, rfl, rfl⟩

/-- Claim C4: in every store state reachable by sequential handler execution,
message ids in one user's transcript equal position + 1 (i.e. each was
assigned as the transcript's length + 1 at append time) and are strictly
increasing, hence unique. -/
theorem reachable_ids_unique_increasing {s : Store} (hs : Reachable s)
    (u : String) (msgs : List Message)
    (h : lookupStore s u = some msgs) :
    (∀ i m, msgs[i]? = some m → m.id = i + 1) ∧
    (∀ (i j : Nat) (mi mj : Message),
      msgs[i]? = some mi → msgs[j]? = some mj → i < j →
      mi.id < mj.id) := by
  have hg := goodStore_reachable hs u msgs h
  refine ⟨fun i m hm => (hg i m hm).1, ?_⟩
  intro i j mi mj hi hj hij
  have h1 := (hg i mi hi).1
  have h2 := (hg j mj hj).1
  omega

theorem reachable_ids_unique_increasing_witness :
    (∀ i m, ([⟨1, "u1", "What is a gerund?", "user", 5⟩,
              ⟨2, "u1", "Error: t", "bot", 6⟩] : List Message)[i]? = some m →
      m.id = i + 1) ∧
    (∀ (i j : Nat) (mi mj : Message),
      ([⟨1, "u1", "What is a gerund?", "user", 5⟩,
        ⟨2, "u1", "Error: t", "bot", 6⟩] : List Message)[i]? = some mi →
      ([⟨1, "u1", "What is a gerund?", "user", 5⟩,
        ⟨2, "u1", "Error: t", "bot", 6⟩] : List Message)[j]? = some mj →
      i < j → mi.id < mj.id) :=
  reachable_ids_unique_increasing
    (Reachable.step Reachable.init
      (Step.chat "u1" "What is a gerund?" 5 (.failure "t") []))
    "u1" _ (by decide)

/-- Claim C5: `clear_messages` deletes the key itself from the store and
reports `{status: "success", message: "Deleted {count} messages"}` where
`count` is the number of messages stored just before deletion; with no
transcript, the count is 0 and the store is unchanged. -/
theorem clear_messages_spec (s : Store) (u : String) :
    lookupStore (clear_messages s u).1 u = none ∧
    (clear_messages s u).2 =
      { status := "success",
        message := "Deleted " ++
          toString ((lookupStore s u).getD []).length ++ " messages" } ∧
    (lookupStore s u = none → (clear_messages s u).1 = s) := by
  unfold clear_messages
  by_cases hc : containsStore s u
  · refine ⟨by simp [hc, lookup_erase_self], by simp [hc], ?_⟩
    intro h
    simp [containsStore, h] at hc
  · have ho : lookupStore s u = none := by
      cases ho : lookupStore s u with
      | none => rfl
      | some t => simp [containsStore, ho] at hc
    exact ⟨by simp [hc, ho], by simp [hc], fun _ => by simp [hc]⟩

theorem clear_messages_spec_witness :
    lookupStore (clear_messages [] "u1").1 "u1" = none ∧
    (clear_messages [] "u1").2 =
      { status := "success", message := "Deleted 0 messages" } ∧
    (clear_messages [] "u1").1 = [] :=
  ⟨(clear_messages_spec [] "u1").1, (clear_messages_spec [] "u1").2.1,
   (clear_messages_spec [] "u1").2.2 rfl⟩

/-- Claim C6: listing an absent user returns an empty message list (never a
not-found error) and creates an empty transcript entry for that user; listing
a present user returns the full stored transcript in order and leaves the
store unchanged. -/
theorem get_messages_spec (s : Store) (u : String) :
    (lookupStore s u = none →
      (get_messages s u).2 = [] ∧
      lookupStore (get_messages s u).1 u = some []) ∧
    (∀ msgs, lookupStore s u = some msgs →
      (get_messages s u).2 = msgs ∧ (get_messages s u).1 = s) := by
  unfold get_messages
  constructor
  · intro h
    have hc : containsStore s u = false := by simp [containsStore, h]
    simp [hc, lookup_insert_self]
  · intro msgs h
    have hc : containsStore s u = true := by simp [containsStore, h]
    simp [hc, h]

theorem get_messages_spec_witness :
    ((get_messages [] "u1").2 = [] ∧
      lookupStore (get_messages [] "u1").1 "u1" = some []) ∧
    ((get_messages [("u2", [⟨1, "u2", "hi", "user", 3⟩])] "u2").2 =
        [⟨1, "u2", "hi", "user", 3⟩] ∧
      (get_messages [("u2", [⟨1, "u2", "hi", "user", 3⟩])] "u2").1 =
        [("u2", [⟨1, "u2", "hi", "user", 3⟩])]) :=
  ⟨(get_messages_spec [] "u1").1 rfl,
   (get_messages_spec [("u2", [⟨1, "u2", "hi", "user", 3⟩])] "u2").2
     [⟨1, "u2", "hi", "user", 3⟩] (by decide)⟩

/-- Claim C7: clearing is idempotent — two consecutive clears for the same
user both report `"success"`, and the second reports a deleted count of 0. -/
theorem clear_messages_idempotent (s : Store) (u : String) :
    (clear_messages s u).2.status = "success" ∧
    (clear_messages (clear_messages s u).1 u).2.status = "success" ∧
    (clear_messages (clear_messages s u).1 u).2.message =
      "Deleted 0 messages" := by
  have h1 : lookupStore (clear_messages s u).1 u = none := by
    unfold clear_messages
    by_cases hc : containsStore s u
    · simp [hc, lookup_erase_self]
    · have ho : lookupStore s u = none := by
        cases ho : lookupStore s u with
        | none => rfl
        | some t => simp [containsStore, ho] at hc
      simp [hc, ho]
  refine ⟨rfl, rfl, ?_⟩
  have h2 : (clear_messages (clear_messages s u).1 u).2.message =
      "Deleted " ++
        toString ((lookupStore (clear_messages s u).1 u).getD []).length ++
        " messages" := rfl
  rw [h2, h1]
  rfl

/-- Claim C8: a chat request for user `u` mutates only the entry stored under
`u` — every other key's entry (or its absence) is unchanged — and the change
at `u` is exactly the append of the two new messages. -/
theorem chat_frame (s : Store) (u q : String) (ts : Nat) (up : UpstreamResult)
    (v : String) (hvu : v ≠ u) :
    lookupStore (chat s u q ts up).1 v = lookupStore s v ∧
    ∃ m1 m2 : Message,
      lookupStore (chat s u q ts up).1 u =
        some ((lookupStore s u).getD [] ++ [m1, m2]) :=
  ⟨chat_lookup_other s u q ts up v hvu, _, _, chat_lookup_self s u q ts up⟩

theorem chat_frame_witness :
    lookupStore (chat [] "u1" "q" 0 (.failure "t")).1 "v1" =
      lookupStore [] "v1" ∧
    ∃ m1 m2 : Message,
      lookupStore (chat [] "u1" "q" 0 (.failure "t")).1 "u1" =
        some ((lookupStore [] "u1").getD [] ++ [m1, m2]) :=
  chat_frame [] "u1" "q" 0 (.failure "t") "v1" (by decide)

/-- Claim C9: in every reachable store state, every message stored under key
`u` carries `user_id = u`, and its sender is exactly `"user"` or `"bot"`. -/
theorem reachable_message_fields {s : Store} (hs : Reachable s)
    (u : String) (msgs : List Message)
    (h : lookupStore s u = some msgs) :
    ∀ m ∈ msgs, m.user_id = u ∧ (m.sender = "user" ∨ m.sender = "bot") := by
  intro m hm
  obtain ⟨i, hi, hget⟩ := List.getElem_of_mem hm
  have := goodStore_reachable hs u msgs h i m (by
    rw [List.getElem?_eq_getElem hi, hget])
  exact ⟨this.2.1, this.2.2⟩

theorem reachable_message_fields_witness :
    ((⟨1, "u1", "What is a gerund?", "user", 5⟩ : Message).user_id = "u1" ∧
      ((⟨1, "u1", "What is a gerund?", "user", 5⟩ : Message).sender = "user" ∨
       (⟨1, "u1", "What is a gerund?", "user", 5⟩ : Message).sender = "bot")) ∧
    ((⟨2, "u1", "Error: t", "bot", 6⟩ : Message).user_id = "u1" ∧
      ((⟨2, "u1", "Error: t", "bot", 6⟩ : Message).sender = "user" ∨
       (⟨2, "u1", "Error: t", "bot", 6⟩ : Message).sender = "bot")) :=
  ⟨reachable_message_fields
      (Reachable.step Reachable.init
        (Step.chat "u1" "What is a gerund?" 5 (.failure "t") []))
      "u1" [⟨1, "u1", "What is a gerund?", "user", 5⟩,
            ⟨2, "u1", "Error: t", "bot", 6⟩] (by decide)
      ⟨1, "u1", "What is a gerund?", "user", 5⟩ (by decide),
   reachable_message_fields
      (Reachable.step Reachable.init
        (Step.chat "u1" "What is a gerund?" 5 (.failure "t") []))
      "u1" [⟨1, "u1", "What is a gerund?", "user", 5⟩,
            ⟨2, "u1", "Error: t", "bot", 6⟩] (by decide)
      ⟨2, "u1", "Error: t", "bot", 6⟩ (by decide)⟩

/-- Claim C10: the chat reply agrees with the store — `bot_response` is the
text of the last stored message, `user_message` the text of the second-to-last
one, and `timestamp` the user message's timestamp, which is the last
message's timestamp minus 1. -/
theorem chat_response_consistent (s : Store) (u q : String) (ts : Nat)
    (up : UpstreamResult) :
    ∃ um bm : Message,
      ((lookupStore (chat s u q ts up).1 u).getD [])[
        ((lookupStore (chat s u q ts up).1 u).getD []).length - 2]? = some um ∧
      ((lookupStore (chat s u q ts up).1 u).getD [])[
        ((lookupStore (chat s u q ts up).1 u).getD []).length - 1]? = some bm ∧
      (chat s u q ts up).2.bot_response = bm.text ∧
      (chat s u q ts up).2.user_message = um.text ∧
      (chat s u q ts up).2.timestamp = um.timestamp ∧
      um.timestamp = bm.timestamp - 1 := by
  refine ⟨chatUserMsg u q ts ((lookupStore s u).getD []).length,
    chatBotMsg u q ts ((lookupStore s u).getD []).length up,
    ?_, ?_, rfl, rfl, rfl, by simp [chatUserMsg, chatBotMsg]⟩
  · rw [chat_lookup_self]
    have hlen :
        ((lookupStore s u).getD [] ++
          [chatUserMsg u q ts ((lookupStore s u).getD []).length,
           chatBotMsg u q ts ((lookupStore s u).getD []).length up]).length =
          ((lookupStore s u).getD []).length + 2 := by simp
    simp only [Option.getD_some, hlen]
    have hidx : ((lookupStore s u).getD []).length + 2 - 2 =
        ((lookupStore s u).getD []).length := by omega
    rw [hidx, List.getElem?_append_right (Nat.le_refl _)]
    simp
  · rw [chat_lookup_self]
    have hlen :
        ((lookupStore s u).getD [] ++
          [chatUserMsg u q ts ((lookupStore s u).getD []).length,
           chatBotMsg u q ts ((lookupStore s u).getD []).length up]).length =
          ((lookupStore s u).getD []).length + 2 := by simp
    simp only [Option.getD_some, hlen]
    have hidx : ((lookupStore s u).getD []).length + 2 - 1 =
        ((lookupStore s u).getD []).length + 1 := by omega
    rw [hidx, List.getElem?_append_right (by omega)]
    have hone : ((lookupStore s u).getD []).length + 1 -
        ((lookupStore s u).getD []).length = 1 := by omega
    rw [hone]
    simp
